import Mathlib

/-!
# Verification of the Tool Execution Substrate (write tool) of `vikvang/zero`

Shallow embedding of the write tool's `Run` method
(`src/internal/llm/tools/write.go`) and of the path/line-ending helpers in
`src/internal/fsext/fileutil.go`, together with theorems settling the frozen
claims about them.

Modelling conventions:
* Go strings are Lean `String`s; byte slices of text are strings too.
* The filesystem, the per-path file-state tracker, and the session history
  store are explicit association-list states threaded through `Run`.
* External collaborators that are interfaces or stdlib calls (the permission
  broker decision, `diff.GenerateDiff`, `filepath.IsAbs/Join/Dir/Rel`, LSP
  diagnostics) are parameters of an `Env` record; fallible OS calls carry a
  failure oracle in `Env` so every error branch of the Go code is reachable.
* Components of this repository whose files are not under `src/` (the tools
  base helpers, the file-state tracker, the history service) are modelled
  from the spec; their doc comments say so explicitly.
-/

namespace ZeroSpec

/-! ## Line-ending conversion (`src/internal/fsext/fileutil.go`) -/

/-- Embeds `strings.Contains(content, "\r\n")`: true iff the character list
contains an adjacent CR LF pair. -/
def containsCRLF : List Char → Bool
  | [] => false
  | [_] => false
  | c :: d :: rest => (c == '\r' && d == '\n') || containsCRLF (d :: rest)

/-- Embeds `strings.ReplaceAll(content, "\n", "\r\n")`: every LF is replaced
by CR LF, scanning left to right. -/
def lfToCrlf : List Char → List Char
  | [] => []
  | c :: rest => if c = '\n' then '\r' :: '\n' :: lfToCrlf rest else c :: lfToCrlf rest

/-- Embeds `strings.ReplaceAll(content, "\r\n", "\n")`: non-overlapping CR LF
pairs are replaced by LF, scanning left to right. -/
def crlfToLf : List Char → List Char
  | [] => []
  | [c] => [c]
  | c :: d :: rest =>
    if c = '\r' ∧ d = '\n' then '\n' :: crlfToLf rest
    else c :: crlfToLf (d :: rest)

/-- Embeds `fsext.ToUnixLineEndings`: if the content contains CR LF, replace
all CR LF by LF and report `true`; otherwise return the content unchanged. -/
def ToUnixLineEndings (content : String) : String × Bool :=
  if containsCRLF content.data then (String.mk (crlfToLf content.data), true)
  else (content, false)

/-- Embeds `fsext.ToWindowsLineEndings`: if the content does not contain
CR LF, replace all LF by CR LF and report `true`; otherwise return the
content unchanged. -/
def ToWindowsLineEndings (content : String) : String × Bool :=
  if !(containsCRLF content.data) then (String.mk (lfToCrlf content.data), true)
  else (content, false)

lemma containsCRLF_cons_of_ne (c : Char) (w : List Char) (hc : c ≠ '\r') :
    containsCRLF (c :: w) = containsCRLF w := by
  cases w with
  | nil => rfl
  | cons d rest =>
    show ((c == '\r' && d == '\n') || containsCRLF (d :: rest)) = containsCRLF (d :: rest)
    have : (c == '\r') = false := by simpa using hc
    simp [this]

lemma containsCRLF_eq_false_of_no_cr : ∀ (s : List Char), '\r' ∉ s →
    containsCRLF s = false
  | [], _ => rfl
  | c :: rest, h => by
    have hc : c ≠ '\r' := fun he => h (he ▸ List.mem_cons_self c rest)
    have hr : '\r' ∉ rest := fun hm => h (List.mem_cons_of_mem c hm)
    rw [containsCRLF_cons_of_ne c rest hc]
    exact containsCRLF_eq_false_of_no_cr rest hr

lemma crlfToLf_cons_of_ne (c : Char) (w : List Char) (hc : c ≠ '\r') :
    crlfToLf (c :: w) = c :: crlfToLf w := by
  cases w with
  | nil => rfl
  | cons d rest =>
    show (if c = '\r' ∧ d = '\n' then '\n' :: crlfToLf rest
      else c :: crlfToLf (d :: rest)) = c :: crlfToLf (d :: rest)
    rw [if_neg (fun hp => hc hp.1)]

lemma crlfToLf_lfToCrlf_of_no_cr : ∀ (s : List Char), '\r' ∉ s →
    crlfToLf (lfToCrlf s) = s
  | [], _ => rfl
  | c :: rest, h => by
    have hc : c ≠ '\r' := fun he => h (he ▸ List.mem_cons_self c rest)
    have hr : '\r' ∉ rest := fun hm => h (List.mem_cons_of_mem c hm)
    by_cases hn : c = '\n'
    · subst hn
      show crlfToLf (if ('\n' : Char) = '\n' then '\r' :: '\n' :: lfToCrlf rest
        else '\n' :: lfToCrlf rest) = '\n' :: rest
      rw [if_pos rfl]
      show (if ('\r' : Char) = '\r' ∧ ('\n' : Char) = '\n' then '\n' :: crlfToLf (lfToCrlf rest)
        else '\r' :: crlfToLf ('\n' :: lfToCrlf rest)) = '\n' :: rest
      rw [if_pos ⟨rfl, rfl⟩, crlfToLf_lfToCrlf_of_no_cr rest hr]
    · show crlfToLf (if c = '\n' then '\r' :: '\n' :: lfToCrlf rest
        else c :: lfToCrlf rest) = c :: rest
      rw [if_neg hn, crlfToLf_cons_of_ne c _ hc, crlfToLf_lfToCrlf_of_no_cr rest hr]

lemma string_mk_data (s : String) : String.mk s.data = s := rfl

/-- The claim's round-trip theorem, stated over the string components. -/
theorem lineEndings_roundTrip (s : String) (h : '\r' ∉ s.data) :
    (ToUnixLineEndings (ToWindowsLineEndings s).1).1 = s := by
  have hnc : containsCRLF s.data = false := containsCRLF_eq_false_of_no_cr s.data h
  have hw : (ToWindowsLineEndings s).1 = String.mk (lfToCrlf s.data) := by
    unfold ToWindowsLineEndings
    rw [hnc]
    rfl
  rw [hw]
  unfold ToUnixLineEndings
  by_cases hc : containsCRLF (String.mk (lfToCrlf s.data)).data = true
  · rw [if_pos hc]
    show String.mk (crlfToLf (lfToCrlf s.data)) = s
    rw [crlfToLf_lfToCrlf_of_no_cr s.data h, string_mk_data]
  · rw [if_neg hc]
    show String.mk (lfToCrlf s.data) = s
    have hfix : crlfToLf (lfToCrlf s.data) = lfToCrlf s.data := by
      clear hw
      generalize lfToCrlf s.data = w at hc ⊢
      have hf : containsCRLF w = false := by
        revert hc
        cases containsCRLF w <;> simp
      clear hc
      induction w with
      | nil => rfl
      | cons c rest ih =>
        cases rest with
        | nil => rfl
        | cons d rest2 =>
          have hsplit : (c == '\r' && d == '\n') = false ∧ containsCRLF (d :: rest2) = false := by
            have := hf
            simp only [containsCRLF, Bool.or_eq_false_iff] at this
            exact this
          show (if c = '\r' ∧ d = '\n' then '\n' :: crlfToLf rest2
            else c :: crlfToLf (d :: rest2)) = c :: d :: rest2
          rw [if_neg (by
            intro hp
            rw [hp.1, hp.2] at hsplit
            simpa using hsplit.1)]
          rw [ih hsplit.2]
    have : lfToCrlf s.data = s.data := by
      have h2 := crlfToLf_lfToCrlf_of_no_cr s.data h
      rw [hfix] at h2
      exact h2
    rw [this, string_mk_data]

/-! ## Path scoping for permission requests (`src/internal/fsext/fileutil.go`) -/

/-- Embeds `strings.HasPrefix(s, pre)` over the character lists (the
byte-level Go semantics coincide on character boundaries). -/
def strHasPfx (s pre : String) : Bool := List.isPrefixOf pre.data s.data

/-- Embeds `fsext.HasPrefix`: `filepath.Rel` (supplied as the parameter
`rel`, since it is a Go stdlib call) is used to decide whether `path` is
within `pre`; an error or a relative path starting with ".." means it is
not. -/
def HasPrefix (rel : String → String → Option String) (path pre : String) : Bool :=
  match rel pre path with
  | none => false
  | some r => !(strHasPfx r "..")

/-- Embeds `fsext.PathOrPrefix`: returns the prefix when the path starts
with it, the path otherwise. -/
def PathOrPrefix (rel : String → String → Option String) (path pre : String) : String :=
  if HasPrefix rel path pre then pre else path

/-- Embeds `strings.TrimPrefix(filePath, workingDir)`. -/
def TrimPrefix (s pre : String) : String :=
  if strHasPfx s pre then String.mk (s.data.drop pre.data.length) else s

/-! ## Data model of the write tool (`src/internal/llm/tools/write.go`) -/

/-- Embeds `tools.WriteParams` (the decoded JSON input). -/
structure WriteParams where
  FilePath : String
  Content : String
deriving DecidableEq

/-- Embeds `tools.WritePermissionsParams`. -/
structure WritePermissionsParams where
  filePath : String
  oldContent : String
  newContent : String
deriving DecidableEq

/-- Embeds `tools.WriteResponseMetadata`. -/
structure WriteResponseMetadata where
  diff : String
  additions : Nat
  removals : Nat
deriving DecidableEq

/-- Modelled from the spec: the `ToolResponse` envelope of §3 / §6
(`{ content, isError, metadata? }`); the tools base file is not under
`src/`. The metadata is kept structured rather than JSON-encoded. -/
structure ToolResponse where
  content : String
  isError : Bool
  metadata : Option WriteResponseMetadata
deriving DecidableEq

/-- The zero value `ToolResponse{}` that Go returns alongside errors. -/
def ToolResponse.zero : ToolResponse := ⟨"", false, none⟩

/-- Modelled from the spec: `NewTextErrorResponse` (tools base, not under
`src/`) wraps a message as a content-error response (`isError = true`). -/
def NewTextErrorResponse (msg : String) : ToolResponse := ⟨msg, true, none⟩

/-- Modelled from the spec: `NewTextResponse` (tools base, not under
`src/`) wraps a message as a plain text response. -/
def NewTextResponse (msg : String) : ToolResponse := ⟨msg, false, none⟩

/-- Modelled from the spec: `WithResponseMetadata` (tools base, not under
`src/`) attaches metadata to a response. -/
def WithResponseMetadata (r : ToolResponse) (m : WriteResponseMetadata) : ToolResponse :=
  { r with metadata := some m }

/-- Embeds `permission.CreatePermissionRequest` as filled in by the write
tool (its `Params` field always holds a `WritePermissionsParams`). -/
structure CreatePermissionRequest where
  sessionID : String
  path : String
  toolCallID : String
  toolName : String
  action : String
  description : String
  params : WritePermissionsParams
deriving DecidableEq

/-- The typed errors `Run` can raise: the `fmt.Errorf` wrappers and the
sentinel `permission.ErrorPermissionDenied`. -/
inductive GoError where
  | checkingFile
  | creatingDirectory
  | sessionRequired
  | permissionDenied
  | writingFile
  | creatingHistory
deriving DecidableEq

/-- A filesystem node: a regular file with content and modification time,
or a directory. -/
inductive FsNode where
  | file (content : String) (modTime : Nat)
  | dir
deriving DecidableEq

/-- Modelled from the spec: one record of the §3 `HistoryVersion` store
(the history service is not under `src/`); versions for a (session, path)
are the matching entries of the state's append-only list, in order. -/
structure HistVersion where
  session : String
  path : String
  content : String
deriving DecidableEq

/-- Modelled from the spec: a §3 `FileStateEntry` of the file-state
tracker (the tracker file is not under `src/`). -/
structure FileState where
  lastRead : Nat
  lastWrite : Nat
deriving DecidableEq

/-- A tool call: its ID and the outcome of `json.Unmarshal` on its input
(JSON decoding itself is a Go stdlib call, so its result is taken as
given). -/
structure ToolCall where
  id : String
  input : Except String WriteParams

/-- The mutable world state threaded through a `Run` call: filesystem,
history store, file-state tracker, the log of emitted permission
requests, and a counter of history-store calls made (used to index the
failure oracle). -/
structure St where
  fs : List (String × FsNode)
  hist : List HistVersion
  tracker : List (String × FileState)
  permRequests : List CreatePermissionRequest
  histOps : Nat
deriving DecidableEq

/-- The ambient environment of a `Run` call: construction-time data
(working directory), context values (session and message IDs, the current
time), the external collaborators (path functions, diff engine, permission
broker decision, diagnostics), and failure oracles for fallible OS and
history-store calls. -/
structure Env where
  workingDir : String
  sessionID : String
  messageID : String
  now : Nat
  isAbs : String → Bool
  joinPath : String → String → String
  dirOf : String → String
  rel : String → String → Option String
  genDiff : String → String → String → String × Nat × Nat
  permit : CreatePermissionRequest → Bool
  statFails : String → Bool
  readFails : String → Bool
  mkdirFails : String → Bool
  writeFails : String → Bool
  histFail : Nat → Bool
  diagnostics : String → String

/-! ## State helpers -/

/-- Embeds `os.Stat` against the association-list filesystem: the node at
`p`, if any (first match wins). -/
def statFs : List (String × FsNode) → String → Option FsNode
  | [], _ => none
  | (q, n) :: rest, p => if q = p then some n else statFs rest p

/-- The regular-file view of a path: its content and modification time,
`none` for directories and absent paths. -/
def fileAt (fs : List (String × FsNode)) (p : String) : Option (String × Nat) :=
  match statFs fs p with
  | some (FsNode.file c t) => some (c, t)
  | _ => none

/-- Embeds the effect of `os.WriteFile(filePath, content, 0o644)`: the
node at `p` becomes a file holding `content` with modification time
`now`. -/
def writeFs : List (String × FsNode) → String → String → Nat → List (String × FsNode)
  | [], p, content, now => [(p, FsNode.file content now)]
  | (q, n) :: rest, p, content, now =>
    if q = p then (q, FsNode.file content now) :: rest
    else (q, n) :: writeFs rest p content now

/-- Embeds the effect of `os.MkdirAll(dir, 0o755)`: a directory node is
created at `d` when nothing exists there; an existing node is left
alone. (Creation of the intermediate ancestors is abstracted into the
single node for `d`.) -/
def mkdirAllFs (fs : List (String × FsNode)) (d : String) : List (String × FsNode) :=
  match statFs fs d with
  | some _ => fs
  | none => (d, FsNode.dir) :: fs

/-- Modelled from the spec: §4.A `getLastRead(path) → timestamp-or-zero`
of the file-state tracker (`getLastReadTime` in the tools package, whose
file is not under `src/`). -/
def getLastReadTime (tr : List (String × FileState)) (p : String) : Nat :=
  match tr with
  | [] => 0
  | (q, s) :: rest => if q = p then s.lastRead else getLastReadTime rest p

/-- Modelled from the spec: §4.A `recordRead(path)` of the file-state
tracker (`recordFileRead` in the tools package, not under `src/`): the
last-read timestamp of `p` becomes `now`. -/
def recordFileRead (tr : List (String × FileState)) (p : String) (now : Nat) :
    List (String × FileState) :=
  match tr with
  | [] => [(p, ⟨now, 0⟩)]
  | (q, s) :: rest =>
    if q = p then (q, { s with lastRead := now }) :: rest
    else (q, s) :: recordFileRead rest p now

/-- Modelled from the spec: §4.A `recordWrite(path)` of the file-state
tracker (`recordFileWrite` in the tools package, not under `src/`): the
last-write timestamp of `p` becomes `now`. -/
def recordFileWrite (tr : List (String × FileState)) (p : String) (now : Nat) :
    List (String × FileState) :=
  match tr with
  | [] => [(p, ⟨0, now⟩)]
  | (q, s) :: rest =>
    if q = p then (q, { s with lastWrite := now }) :: rest
    else (q, s) :: recordFileWrite rest p now

/-- Modelled from the spec: §4.C `getByPathAndSession(session, path) →
version | notFound` of the history service (not under `src/`), which per
§3 compares against "the latest recorded version": the last appended
matching version, if any. -/
def latestVersion (hist : List HistVersion) (sid p : String) : Option HistVersion :=
  match hist with
  | [] => none
  | v :: rest =>
    match latestVersion rest sid p with
    | some w => some w
    | none => if v.session = sid ∧ v.path = p then some v else none

/-! ## The write tool's `Run` (`src/internal/llm/tools/write.go`, lines 112-236) -/

/-- Resolution of the input path (lines 126-129): a relative path is
joined with the working directory. -/
def resolvePath (env : Env) (params : WriteParams) : String :=
  if env.isAbs params.FilePath then params.FilePath
  else env.joinPath env.workingDir params.FilePath

/-- The pre-image `oldContent` captured at lines 157-163: the on-disk
content when the path holds a regular file and `os.ReadFile` succeeds,
`""` otherwise. -/
def oldContentOf (env : Env) (fs : List (String × FsNode)) (p : String) : String :=
  match statFs fs p with
  | some (FsNode.file c _) => if env.readFails p then "" else c
  | _ => ""

/-- The message of line 134. -/
def dirMsg (p : String) : String := "Path is a directory, not a file: " ++ p

/-- The message of lines 140-141 (timestamps rendered as numbers in place
of RFC3339). -/
def staleMsg (p : String) (modTime lastRead : Nat) : String :=
  "File " ++ p ++ " has been modified since it was last read.\nLast modification: " ++
    toString modTime ++ "\nLast read: " ++ toString lastRead ++
    "\n\nPlease read the file again before modifying it."

/-- The message of line 146. -/
def noopMsg (p : String) : String :=
  "File " ++ p ++ " already contains the exact content. No changes made."

/-- The permission request built at lines 176-190. -/
def permReqOf (env : Env) (call : ToolCall) (params : WriteParams) (p old : String) :
    CreatePermissionRequest :=
  { sessionID := env.sessionID
    path := PathOrPrefix env.rel p env.workingDir
    toolCallID := call.id
    toolName := "write"
    action := "write"
    description := "Create file " ++ p
    params := { filePath := p, oldContent := old, newContent := params.Content } }

/-- The success response of lines 226-235: the success message wrapped in
`<result>` tags, followed by the collected diagnostics, with the diff
metadata from `diff.GenerateDiff(oldContent, content, trimmed path)`
(computed at lines 170-174). -/
def successResp (env : Env) (p old content : String) : ToolResponse :=
  let d := env.genDiff old content (TrimPrefix p env.workingDir)
  WithResponseMetadata
    (NewTextResponse
      ("<result>\nFile successfully written: " ++ p ++ "\n</result>" ++ env.diagnostics p))
    ⟨d.1, d.2.1, d.2.2⟩

/-- History bookkeeping after `GetByPathAndSession` (lines 209-225):
`fileContent` is the `file.Content` field in scope (the zero value `""`
when the lookup failed), the intermediate version is appended when it
differs from the pre-image, then the post-image version is appended; a
failing `CreateVersion` is logged and skipped; finally the tracker is
updated (`recordFileWrite` then `recordFileRead`) and the success
response is returned. -/
def runHistoryRest (env : Env) (st : St) (fileContent p old content : String) :
    (ToolResponse × Option GoError) × St :=
  let st1 :=
    if fileContent ≠ old then
      if env.histFail st.histOps then { st with histOps := st.histOps + 1 }
      else { st with hist := st.hist ++ [⟨env.sessionID, p, old⟩], histOps := st.histOps + 1 }
    else st
  let st2 :=
    if env.histFail st1.histOps then { st1 with histOps := st1.histOps + 1 }
    else { st1 with hist := st1.hist ++ [⟨env.sessionID, p, content⟩], histOps := st1.histOps + 1 }
  let st3 := { st2 with tracker := recordFileRead (recordFileWrite st2.tracker p env.now) p env.now }
  ((successResp env p old content, none), st3)

/-- Lines 200-208: `GetByPathAndSession`; on a miss, `Create` stores the
pre-image — its failure is fatal (`error creating file history`) — and
the `file` record left in scope is the zero value. -/
def runHistory (env : Env) (st : St) (p old content : String) :
    (ToolResponse × Option GoError) × St :=
  match latestVersion st.hist env.sessionID p with
  | none =>
    if env.histFail st.histOps then
      ((ToolResponse.zero, some GoError.creatingHistory), { st with histOps := st.histOps + 1 })
    else
      runHistoryRest env
        { st with hist := st.hist ++ [⟨env.sessionID, p, old⟩], histOps := st.histOps + 1 }
        "" p old content
  | some v => runHistoryRest env st v.content p old content

/-- The pre-image `oldContent` captured at lines 157-163 from the
`fileInfo` of the earlier `os.Stat`: the on-disk content when the stat saw
a regular file and `os.ReadFile` succeeds, `""` otherwise. -/
def oldOfInfo (env : Env) (p : String) : Option (String × Nat) → String
  | some ci => if env.readFails p then "" else ci.1
  | none => ""

/-- The state after `MkdirAll` (line 153) and the emission of the
permission request (lines 176-190): the parent directory exists and the
request is logged; nothing else has changed yet. -/
def mutPermState (env : Env) (st : St) (call : ToolCall) (params : WriteParams) (p : String)
    (fi : Option (String × Nat)) : St :=
  { st with fs := mkdirAllFs st.fs (env.dirOf p)
            permRequests := st.permRequests ++ [permReqOf env call params p (oldOfInfo env p fi)] }

/-- The state right after the successful `os.WriteFile` (line 195), before
the history phase. -/
def preHistState (env : Env) (st : St) (call : ToolCall) (params : WriteParams) (p : String)
    (fi : Option (String × Nat)) : St :=
  { st with fs := writeFs (mkdirAllFs st.fs (env.dirOf p)) p params.Content env.now
            permRequests := st.permRequests ++ [permReqOf env call params p (oldOfInfo env p fi)] }

/-- Lines 152-198: `MkdirAll` on the parent directory (before any other
effect), capture of the pre-image, the session/message-ID check, the
permission request (always emitted at this point), denial, and the
filesystem write; then the history phase. -/
def runMutate (env : Env) (st : St) (call : ToolCall) (params : WriteParams) (p : String)
    (fi : Option (String × Nat)) : (ToolResponse × Option GoError) × St :=
  if env.mkdirFails (env.dirOf p) then
    ((ToolResponse.zero, some GoError.creatingDirectory), st)
  else if env.sessionID = "" ∨ env.messageID = "" then
    ((ToolResponse.zero, some GoError.sessionRequired), { st with fs := mkdirAllFs st.fs (env.dirOf p) })
  else if env.permit (permReqOf env call params p (oldOfInfo env p fi)) = false then
    ((ToolResponse.zero, some GoError.permissionDenied), mutPermState env st call params p fi)
  else if env.writeFails p then
    ((ToolResponse.zero, some GoError.writingFile), mutPermState env st call params p fi)
  else
    runHistory env (preHistState env st call params p fi) p (oldOfInfo env p fi) params.Content

/-- Embeds `writeTool.Run`: parameter decoding and validation (lines
113-124), path resolution (126-129), `os.Stat` and the conflict checks
(131-150), then the mutation phase. -/
def Run (env : Env) (st : St) (call : ToolCall) : (ToolResponse × Option GoError) × St :=
  match call.input with
  | Except.error e => ((NewTextErrorResponse ("error parsing parameters: " ++ e), none), st)
  | Except.ok params =>
    if params.FilePath = "" then ((NewTextErrorResponse "file_path is required", none), st)
    else if params.Content = "" then ((NewTextErrorResponse "content is required", none), st)
    else if env.statFails (resolvePath env params) then
      ((ToolResponse.zero, some GoError.checkingFile), st)
    else
      match statFs st.fs (resolvePath env params) with
      | some FsNode.dir =>
        ((NewTextErrorResponse (dirMsg (resolvePath env params)), none), st)
      | some (FsNode.file c t) =>
        if getLastReadTime st.tracker (resolvePath env params) < t then
          ((NewTextErrorResponse
            (staleMsg (resolvePath env params) t
              (getLastReadTime st.tracker (resolvePath env params))), none), st)
        else if env.readFails (resolvePath env params) = false ∧ c = params.Content then
          ((NewTextErrorResponse (noopMsg (resolvePath env params)), none), st)
        else runMutate env st call params (resolvePath env params) (some (c, t))
      | none => runMutate env st call params (resolvePath env params) none

/-! ## Structural lemmas about `Run` -/

lemma runHistoryRest_fst (env : Env) (st : St) (fc p old c : String) :
    (runHistoryRest env st fc p old c).1 = (successResp env p old c, none) := rfl

lemma runHistoryRest_permRequests (env : Env) (st : St) (fc p old c : String) :
    (runHistoryRest env st fc p old c).2.permRequests = st.permRequests := by
  unfold runHistoryRest
  dsimp only
  repeat' split
  all_goals rfl

lemma runHistoryRest_tracker (env : Env) (st : St) (fc p old c : String) :
    (runHistoryRest env st fc p old c).2.tracker =
      recordFileRead (recordFileWrite st.tracker p env.now) p env.now := by
  unfold runHistoryRest
  dsimp only
  repeat' split
  all_goals rfl

lemma runHistory_fst_cases (env : Env) (st : St) (p old c : String) :
    (runHistory env st p old c).1 = (ToolResponse.zero, some GoError.creatingHistory) ∨
      (runHistory env st p old c).1 = (successResp env p old c, none) := by
  unfold runHistory
  split
  · split
    · exact Or.inl rfl
    · exact Or.inr (runHistoryRest_fst _ _ _ _ _ _)
  · exact Or.inr (runHistoryRest_fst _ _ _ _ _ _)

lemma runHistory_permRequests (env : Env) (st : St) (p old c : String) :
    (runHistory env st p old c).2.permRequests = st.permRequests := by
  unfold runHistory
  split
  · split
    · rfl
    · exact runHistoryRest_permRequests _ _ _ _ _ _
  · exact runHistoryRest_permRequests _ _ _ _ _ _

lemma fileAt_mkdirAllFs (fs : List (String × FsNode)) (d q : String) :
    fileAt (mkdirAllFs fs d) q = fileAt fs q := by
  unfold mkdirAllFs
  split
  · rfl
  · rename_i hnone
    unfold fileAt
    show (match (if d = q then some FsNode.dir else statFs fs q) with
      | some (FsNode.file c t) => some (c, t)
      | _ => none) = _
    by_cases hdq : d = q
    · rw [if_pos hdq, ← hdq, hnone]
    · rw [if_neg hdq]

lemma oldOfInfo_fileAt (env : Env) (fs : List (String × FsNode)) (p : String) :
    oldOfInfo env p (fileAt fs p) = oldContentOf env fs p := by
  unfold oldOfInfo fileAt oldContentOf
  cases h : statFs fs p with
  | none => rfl
  | some n => cases n <;> rfl

/-- Branch analysis of `runMutate`: each exit of lines 152-198 with its
exact error and state. -/
lemma runMutate_shape (env : Env) (st : St) (call : ToolCall) (params : WriteParams)
    (p : String) (fi : Option (String × Nat)) (resp : ToolResponse) (err : Option GoError)
    (st' : St) (h : runMutate env st call params p fi = ((resp, err), st')) :
    (resp = ToolResponse.zero ∧ err = some GoError.creatingDirectory ∧ st' = st)
  ∨ (resp = ToolResponse.zero ∧ err = some GoError.sessionRequired ∧
      st' = { st with fs := mkdirAllFs st.fs (env.dirOf p) })
  ∨ (resp = ToolResponse.zero ∧ err = some GoError.permissionDenied ∧
      st' = mutPermState env st call params p fi)
  ∨ (resp = ToolResponse.zero ∧ err = some GoError.writingFile ∧
      st' = mutPermState env st call params p fi)
  ∨ runHistory env (preHistState env st call params p fi) p (oldOfInfo env p fi) params.Content
      = ((resp, err), st') := by
  unfold runMutate at h
  split at h
  · injection h with h1 h3
    injection h1 with hr he
    exact Or.inl ⟨hr.symm, he.symm, h3.symm⟩
  · split at h
    · injection h with h1 h3
      injection h1 with hr he
      exact Or.inr (Or.inl ⟨hr.symm, he.symm, h3.symm⟩)
    · split at h
      · injection h with h1 h3
        injection h1 with hr he
        exact Or.inr (Or.inr (Or.inl ⟨hr.symm, he.symm, h3.symm⟩))
      · split at h
        · injection h with h1 h3
          injection h1 with hr he
          exact Or.inr (Or.inr (Or.inr (Or.inl ⟨hr.symm, he.symm, h3.symm⟩)))
        · exact Or.inr (Or.inr (Or.inr (Or.inr h)))

/-- Branch analysis of `Run`: a content-error exit leaves the state
untouched, the stat-failure exit raises `checkingFile`, and every other
path delegates to `runMutate` on the resolved path and its stat result. -/
lemma run_branches (env : Env) (st : St) (call : ToolCall) (resp : ToolResponse)
    (err : Option GoError) (st' : St) (h : Run env st call = ((resp, err), st')) :
    (err = none ∧ resp.isError = true ∧ st' = st)
  ∨ (resp = ToolResponse.zero ∧ err = some GoError.checkingFile ∧ st' = st)
  ∨ (∃ params, call.input = Except.ok params ∧
      runMutate env st call params (resolvePath env params)
        (fileAt st.fs (resolvePath env params)) = ((resp, err), st')) := by
  unfold Run at h
  split at h
  · rename_i e heq
    injection h with h1 h3
    injection h1 with hr he
    exact Or.inl ⟨he.symm, by rw [← hr]; rfl, h3.symm⟩
  · rename_i params heq
    split at h
    · injection h with h1 h3
      injection h1 with hr he
      exact Or.inl ⟨he.symm, by rw [← hr]; rfl, h3.symm⟩
    · split at h
      · injection h with h1 h3
        injection h1 with hr he
        exact Or.inl ⟨he.symm, by rw [← hr]; rfl, h3.symm⟩
      · split at h
        · injection h with h1 h3
          injection h1 with hr he
          exact Or.inr (Or.inl ⟨hr.symm, he.symm, h3.symm⟩)
        · split at h
          · rename_i hdir
            injection h with h1 h3
            injection h1 with hr he
            exact Or.inl ⟨he.symm, by rw [← hr]; rfl, h3.symm⟩
          · rename_i c t hfile
            split at h
            · injection h with h1 h3
              injection h1 with hr he
              exact Or.inl ⟨he.symm, by rw [← hr]; rfl, h3.symm⟩
            · split at h
              · injection h with h1 h3
                injection h1 with hr he
                exact Or.inl ⟨he.symm, by rw [← hr]; rfl, h3.symm⟩
              · refine Or.inr (Or.inr ⟨params, heq, ?_⟩)
                have hfa : fileAt st.fs (resolvePath env params) = some (c, t) := by
                  unfold fileAt
                  rw [hfile]
                rw [hfa]
                exact h
          · rename_i hnone
            refine Or.inr (Or.inr ⟨params, heq, ?_⟩)
            have hfa : fileAt st.fs (resolvePath env params) = none := by
              unfold fileAt
              rw [hnone]
            rw [hfa]
            exact h

lemma run_eq_runMutate (env : Env) (st : St) (call : ToolCall) (params : WriteParams)
    (hin : call.input = Except.ok params)
    (hfp : params.FilePath ≠ "") (hct : params.Content ≠ "")
    (hsf : env.statFails (resolvePath env params) = false)
    (hnode : statFs st.fs (resolvePath env params) = none ∨
      ∃ c t, statFs st.fs (resolvePath env params) = some (FsNode.file c t) ∧
        ¬(getLastReadTime st.tracker (resolvePath env params) < t) ∧
        ¬(env.readFails (resolvePath env params) = false ∧ c = params.Content)) :
    Run env st call =
      runMutate env st call params (resolvePath env params)
        (fileAt st.fs (resolvePath env params)) := by
  unfold Run
  simp only [hin]
  rw [if_neg hfp, if_neg hct, if_neg (by simp [hsf])]
  rcases hnode with hn | ⟨c, t, heq, hstale, hnoop⟩
  · have hfa : fileAt st.fs (resolvePath env params) = none := by
      unfold fileAt
      rw [hn]
    simp only [hn, hfa]
  · have hfa : fileAt st.fs (resolvePath env params) = some (c, t) := by
      unfold fileAt
      rw [heq]
    simp only [heq, hfa]
    rw [if_neg hstale, if_neg hnoop]

lemma runMutate_eq_runHistory (env : Env) (st : St) (call : ToolCall) (params : WriteParams)
    (p : String) (fi : Option (String × Nat))
    (hmk : env.mkdirFails (env.dirOf p) = false)
    (hsid : env.sessionID ≠ "") (hmid : env.messageID ≠ "")
    (hperm : env.permit (permReqOf env call params p (oldOfInfo env p fi)) = true)
    (hwf : env.writeFails p = false) :
    runMutate env st call params p fi =
      runHistory env (preHistState env st call params p fi) p (oldOfInfo env p fi)
        params.Content := by
  unfold runMutate
  rw [if_neg (by simp [hmk]), if_neg (by simp [hsid, hmid]), if_neg (by simp [hperm]),
    if_neg (by simp [hwf])]

lemma runHistory_found (env : Env) (st : St) (p old c : String) (v : HistVersion)
    (hfound : latestVersion st.hist env.sessionID p = some v) :
    runHistory env st p old c = runHistoryRest env st v.content p old c := by
  unfold runHistory
  simp only [hfound]

lemma runHistory_create_fail (env : Env) (st : St) (p old c : String)
    (hnone : latestVersion st.hist env.sessionID p = none)
    (hf : env.histFail st.histOps = true) :
    runHistory env st p old c =
      ((ToolResponse.zero, some GoError.creatingHistory), { st with histOps := st.histOps + 1 }) := by
  unfold runHistory
  simp only [hnone]
  rw [if_pos hf]

lemma runHistory_fst_success (env : Env) (st : St) (p old c : String)
    (hok : latestVersion st.hist env.sessionID p = none → env.histFail st.histOps = false) :
    (runHistory env st p old c).1 = (successResp env p old c, none) := by
  unfold runHistory
  split
  · rename_i hn
    rw [if_neg (by simp [hok hn])]
    exact runHistoryRest_fst _ _ _ _ _ _
  · exact runHistoryRest_fst _ _ _ _ _ _

lemma runHistoryRest_hist_ok (env : Env) (st : St) (fc p old c : String)
    (hf0 : env.histFail st.histOps = false)
    (hf1 : env.histFail (st.histOps + 1) = false) :
    (runHistoryRest env st fc p old c).2.hist =
      st.hist ++ (if fc ≠ old then [⟨env.sessionID, p, old⟩] else []) ++
        [⟨env.sessionID, p, c⟩] := by
  unfold runHistoryRest
  dsimp only
  by_cases hfc : fc ≠ old
  · rw [if_pos hfc, if_pos hfc]
    rw [hf0, if_neg Bool.false_ne_true]
    dsimp only
    rw [hf1, if_neg Bool.false_ne_true]
  · rw [if_neg hfc, if_neg hfc]
    rw [hf0, if_neg Bool.false_ne_true]
    simp

/-- History bookkeeping when the (session, path) is new: `Create` stores
the pre-image, and because the zero-valued `file` record is compared
against the pre-image, a second copy of a nonempty pre-image is appended
as the "intermediate" version before the post-image. -/
lemma runHistory_hist_new_ok (env : Env) (st : St) (p old c : String)
    (hnone : latestVersion st.hist env.sessionID p = none)
    (hnf : ∀ n, env.histFail n = false) :
    (runHistory env st p old c).2.hist =
      (st.hist ++ [⟨env.sessionID, p, old⟩]) ++
        (if ("" : String) ≠ old then [⟨env.sessionID, p, old⟩] else []) ++
        [⟨env.sessionID, p, c⟩] := by
  unfold runHistory
  simp only [hnone]
  rw [if_neg (by simp [hnf])]
  exact runHistoryRest_hist_ok env _ "" p old c (hnf _) (hnf _)

/-! ## Concrete scenario data for witnesses and counterexamples -/

/-- A baseline environment: working directory `/w`, session `s`, message
`m`, everything permitted, no failures, a fixed diff and empty
diagnostics. -/
def env0 : Env :=
  { workingDir := "/w"
    sessionID := "s"
    messageID := "m"
    now := 10
    isAbs := fun q => q.data.head? == some '/'
    joinPath := fun a b => a ++ "/" ++ b
    dirOf := fun _ => "/w"
    rel := fun _ q => some (String.mk (q.data.drop 3))
    genDiff := fun _ _ _ => ("DIFF", 1, 0)
    permit := fun _ => true
    statFails := fun _ => false
    readFails := fun _ => false
    mkdirFails := fun _ => false
    writeFails := fun _ => false
    histFail := fun _ => false
    diagnostics := fun _ => "" }

/-- An empty world: no files, no history, no tracker entries. -/
def stEmpty : St := ⟨[], [], [], [], 0⟩

/-- Denial scenario: the broker refuses everything and the target's parent
directory `/w/sub` does not exist yet. -/
def envDeny : Env := { env0 with permit := fun _ => false, dirOf := fun _ => "/w/sub" }

/-- The call of the denial scenario. -/
def callDeny : ToolCall := ⟨"t1", Except.ok ⟨"/w/sub/a.txt", "hello"⟩⟩

/-- Stale-write scenario: `/w/b.txt` was modified (mtime 7) after the last
recorded read (5). -/
def stStale : St := ⟨[("/w/b.txt", FsNode.file "x" 7)], [], [("/w/b.txt", ⟨5, 0⟩)], [], 0⟩

/-- The call of the stale-write scenario. -/
def callStale : ToolCall := ⟨"t2", Except.ok ⟨"/w/b.txt", "y"⟩⟩

/-- No-op scenario: `/w/b.txt` holds `x` (mtime 3, last read 5) and the
call writes the identical content. -/
def stNoop : St := ⟨[("/w/b.txt", FsNode.file "x" 3)], [], [("/w/b.txt", ⟨5, 0⟩)], [], 0⟩

/-- The call of the no-op scenario. -/
def callNoop : ToolCall := ⟨"t3", Except.ok ⟨"/w/b.txt", "x"⟩⟩

/-- New-history-entry scenario with a nonempty pre-image: `/w/a.txt`
holds `x` on disk (mtime 3, last read 5) and no history entry exists. -/
def stNew : St := ⟨[("/w/a.txt", FsNode.file "x" 3)], [], [("/w/a.txt", ⟨5, 0⟩)], [], 0⟩

/-- The call of the new-history-entry scenario, writing `y`. -/
def callNew : ToolCall := ⟨"t4", Except.ok ⟨"/w/a.txt", "y"⟩⟩

/-- External-edit scenario: history for (s, `/w/d.txt`) records `v1`,
the disk holds `user-edit`, and the call writes `v2`. -/
def stEdit : St :=
  ⟨[("/w/d.txt", FsNode.file "user-edit" 3)], [⟨"s", "/w/d.txt", "v1"⟩],
    [("/w/d.txt", ⟨5, 0⟩)], [], 0⟩

/-- The call of the external-edit scenario. -/
def callEdit : ToolCall := ⟨"t5", Except.ok ⟨"/w/d.txt", "v2"⟩⟩

/-- Fresh-file call for the history-failure and response-shape
witnesses. -/
def callFresh : ToolCall := ⟨"t6", Except.ok ⟨"a.txt", "hello"⟩⟩

/-- Environment whose history store fails every call after the first:
the initial `Create` succeeds and the subsequent `CreateVersion`s fail. -/
def envLateHistFail : Env := { env0 with histFail := fun n => n != 0 }

/-! ## Claim theorems -/

/-- C9: `writeTool.Run` returns a non-nil error only together with the
zero-value `ToolResponse`, and a content-error response (`isError=true`)
only together with a nil error; it never returns both a populated
response and a non-nil error. -/
theorem error_and_content_error_exclusive (env : Env) (st : St) (call : ToolCall) :
    ((Run env st call).1.2 ≠ none → (Run env st call).1.1 = ToolResponse.zero) ∧
    ((Run env st call).1.1.isError = true → (Run env st call).1.2 = none) := by
  rcases hr : Run env st call with ⟨⟨resp, err⟩, st'⟩
  dsimp only
  rcases run_branches env st call resp err st' hr with
    ⟨he, _, _⟩ | ⟨hz, _, _⟩ | ⟨params, hin, hm⟩
  · exact ⟨fun hne => absurd he hne, fun _ => he⟩
  · refine ⟨fun _ => hz, fun hie => ?_⟩
    rw [hz] at hie
    exact absurd hie (by simp [ToolResponse.zero])
  · rcases runMutate_shape env st call params _ _ resp err st' hm with
      ⟨hz, _, _⟩ | ⟨hz, _, _⟩ | ⟨hz, _, _⟩ | ⟨hz, _, _⟩ | hh
    · exact ⟨fun _ => hz, fun hie => absurd (hz ▸ hie) (by simp [ToolResponse.zero])⟩
    · exact ⟨fun _ => hz, fun hie => absurd (hz ▸ hie) (by simp [ToolResponse.zero])⟩
    · exact ⟨fun _ => hz, fun hie => absurd (hz ▸ hie) (by simp [ToolResponse.zero])⟩
    · exact ⟨fun _ => hz, fun hie => absurd (hz ▸ hie) (by simp [ToolResponse.zero])⟩
    · have h1 : (runHistory env (preHistState env st call params (resolvePath env params)
          (fileAt st.fs (resolvePath env params))) (resolvePath env params)
          (oldOfInfo env (resolvePath env params) (fileAt st.fs (resolvePath env params)))
          params.Content).1 = (resp, err) := by rw [hh]
      rcases runHistory_fst_cases env _ (resolvePath env params) _ params.Content with hc | hc
      · rw [hc] at h1
        injection h1 with hr1 hr2
        exact ⟨fun _ => hr1.symm, fun hie =>
          absurd (hr1 ▸ hie) (by simp [ToolResponse.zero])⟩
      · rw [hc] at h1
        injection h1 with hr1 hr2
        refine ⟨fun hne => absurd hr2.symm hne, fun _ => hr2.symm⟩

/-- Witness for C9 at the fresh-file scenario. -/
theorem error_and_content_error_exclusive_witness :
    ((Run env0 stEmpty callFresh).1.2 ≠ none → (Run env0 stEmpty callFresh).1.1 = ToolResponse.zero) ∧
    ((Run env0 stEmpty callFresh).1.1.isError = true → (Run env0 stEmpty callFresh).1.2 = none) :=
  error_and_content_error_exclusive env0 stEmpty callFresh

/-- C2: a call targeting an existing file whose modification time is
strictly after the tracker's last-read time returns the stale-write
content error (`isError = true`, nil Go error) and leaves the
filesystem, the history store and the tracker untouched. -/
theorem stale_write_rejected_without_mutation (env : Env) (st : St) (call : ToolCall)
    (params : WriteParams) (c : String) (t : Nat)
    (hin : call.input = Except.ok params)
    (hfp : params.FilePath ≠ "") (hct : params.Content ≠ "")
    (hsf : env.statFails (resolvePath env params) = false)
    (hfile : statFs st.fs (resolvePath env params) = some (FsNode.file c t))
    (hstale : getLastReadTime st.tracker (resolvePath env params) < t) :
    Run env st call =
      ((NewTextErrorResponse
          (staleMsg (resolvePath env params) t
            (getLastReadTime st.tracker (resolvePath env params))), none), st) := by
  unfold Run
  simp only [hin]
  rw [if_neg hfp, if_neg hct, if_neg (by simp [hsf])]
  simp only [hfile]
  rw [if_pos hstale]

/-- Witness for C2 at the stale-write scenario. -/
theorem stale_write_rejected_without_mutation_witness :
    getLastReadTime stStale.tracker "/w/b.txt" < 7 ∧
    Run env0 stStale callStale =
      ((NewTextErrorResponse (staleMsg "/w/b.txt" 7 5), none), stStale) :=
  ⟨by decide,
    stale_write_rejected_without_mutation env0 stStale callStale ⟨"/w/b.txt", "y"⟩ "x" 7
      rfl (by decide) (by decide) rfl rfl (by decide)⟩

/-- C6: a call targeting an existing file whose on-disk content equals the
requested content (and which passes the staleness check) returns the
"already contains" content error and leaves the state untouched — so no
history version is appended, no file is written, and no permission
request is made. -/
theorem identical_content_noop_no_effects (env : Env) (st : St) (call : ToolCall)
    (params : WriteParams) (c : String) (t : Nat)
    (hin : call.input = Except.ok params)
    (hfp : params.FilePath ≠ "") (hct : params.Content ≠ "")
    (hsf : env.statFails (resolvePath env params) = false)
    (hfile : statFs st.fs (resolvePath env params) = some (FsNode.file c t))
    (hfresh : ¬(getLastReadTime st.tracker (resolvePath env params) < t))
    (hread : env.readFails (resolvePath env params) = false)
    (hsame : c = params.Content) :
    Run env st call =
      ((NewTextErrorResponse (noopMsg (resolvePath env params)), none), st) := by
  unfold Run
  simp only [hin]
  rw [if_neg hfp, if_neg hct, if_neg (by simp [hsf])]
  simp only [hfile]
  rw [if_neg hfresh, if_pos ⟨hread, hsame⟩]

/-- Witness for C6 at the no-op scenario. -/
theorem identical_content_noop_no_effects_witness :
    Run env0 stNoop callNoop =
      ((NewTextErrorResponse (noopMsg "/w/b.txt"), none), stNoop) :=
  identical_content_noop_no_effects env0 stNoop callNoop ⟨"/w/b.txt", "x"⟩ "x" 3
    rfl (by decide) (by decide) rfl rfl (by decide) rfl rfl

/-- C1 (amended): a denied call returns the typed `permissionDenied`
error with the zero response, and mutates neither the history store, nor
the tracker, nor any regular file — but the parent directory may already
have been created, since `MkdirAll` runs before the permission request. -/
theorem permission_denial_no_file_history_tracker_mutation (env : Env) (st : St)
    (call : ToolCall) (resp : ToolResponse) (st' : St)
    (h : Run env st call = ((resp, some GoError.permissionDenied), st')) :
    resp = ToolResponse.zero ∧ st'.hist = st.hist ∧ st'.tracker = st.tracker ∧
      (∀ q, fileAt st'.fs q = fileAt st.fs q) := by
  rcases run_branches env st call resp (some GoError.permissionDenied) st' h with
    ⟨he, _, _⟩ | ⟨_, he, _⟩ | ⟨params, hin, hm⟩
  · exact absurd he (by decide)
  · exact absurd he (by decide)
  · rcases runMutate_shape env st call params _ _ resp (some GoError.permissionDenied) st' hm with
      ⟨_, he, _⟩ | ⟨_, he, _⟩ | ⟨hz, _, hst⟩ | ⟨_, he, _⟩ | hh
    · exact absurd he (by decide)
    · exact absurd he (by decide)
    · subst hst
      exact ⟨hz, rfl, rfl, fun q =>
        fileAt_mkdirAllFs st.fs (env.dirOf (resolvePath env params)) q⟩
    · exact absurd he (by decide)
    · have h1 : (runHistory env
          (preHistState env st call params (resolvePath env params)
            (fileAt st.fs (resolvePath env params)))
          (resolvePath env params)
          (oldOfInfo env (resolvePath env params) (fileAt st.fs (resolvePath env params)))
          params.Content).1 = (resp, some GoError.permissionDenied) := by rw [hh]
      rcases runHistory_fst_cases env
          (preHistState env st call params (resolvePath env params)
            (fileAt st.fs (resolvePath env params)))
          (resolvePath env params)
          (oldOfInfo env (resolvePath env params) (fileAt st.fs (resolvePath env params)))
          params.Content with hc | hc
      · rw [hc] at h1
        injection h1 with _ he2
        exact absurd he2 (by decide)
      · rw [hc] at h1
        injection h1 with _ he2
        exact absurd he2 (by decide)

/-- C1 counterexample: on a denial whose target's parent directory did
not exist, the filesystem IS mutated — the parent directory has been
created before the permission request was resolved. -/
theorem permission_denial_creates_directory_counterexample :
    (Run envDeny stEmpty callDeny).1.2 = some GoError.permissionDenied ∧
    (Run envDeny stEmpty callDeny).2.fs = [("/w/sub", FsNode.dir)] ∧
    stEmpty.fs = [] :=
  ⟨rfl, rfl, rfl⟩

/-- Witness for the amended C1 at the denial scenario. -/
theorem permission_denial_no_file_history_tracker_mutation_witness :
    (Run envDeny stEmpty callDeny).1.1 = ToolResponse.zero ∧
    (Run envDeny stEmpty callDeny).2.hist = stEmpty.hist ∧
    (Run envDeny stEmpty callDeny).2.tracker = stEmpty.tracker ∧
    (∀ q, fileAt (Run envDeny stEmpty callDeny).2.fs q = fileAt stEmpty.fs q) :=
  permission_denial_no_file_history_tracker_mutation envDeny stEmpty callDeny
    (Run envDeny stEmpty callDeny).1.1 (Run envDeny stEmpty callDeny).2 rfl

/-- C3: on a successful write whose (session, path) was already in the
history store, an intermediate version holding the captured on-disk
pre-image is appended before the post-image version if and only if the
pre-image differs from the latest recorded version. -/
theorem intermediate_version_iff_preimage_differs (env : Env) (st : St) (call : ToolCall)
    (params : WriteParams) (v : HistVersion) (resp : ToolResponse) (st' : St)
    (h : Run env st call = ((resp, none), st'))
    (hsucc : resp.isError = false)
    (hnf : ∀ n, env.histFail n = false)
    (hin : call.input = Except.ok params)
    (hfound : latestVersion st.hist env.sessionID (resolvePath env params) = some v) :
    st'.hist = st.hist ++
      (if v.content ≠ oldContentOf env st.fs (resolvePath env params) then
        [⟨env.sessionID, resolvePath env params,
          oldContentOf env st.fs (resolvePath env params)⟩]
      else []) ++
      [⟨env.sessionID, resolvePath env params, params.Content⟩] := by
  rcases run_branches env st call resp none st' h with
    ⟨_, hie, _⟩ | ⟨_, he, _⟩ | ⟨params', hin', hm⟩
  · exact absurd (hsucc.symm.trans hie) Bool.false_ne_true
  · exact absurd he (by decide)
  · rw [hin] at hin'
    obtain rfl : params = params' := Except.ok.inj hin'
    rcases runMutate_shape env st call params _ _ resp none st' hm with
      ⟨_, he, _⟩ | ⟨_, he, _⟩ | ⟨_, he, _⟩ | ⟨_, he, _⟩ | hh
    · exact absurd he (by decide)
    · exact absurd he (by decide)
    · exact absurd he (by decide)
    · exact absurd he (by decide)
    · have hfound' : latestVersion
          (preHistState env st call params (resolvePath env params)
            (fileAt st.fs (resolvePath env params))).hist
          env.sessionID (resolvePath env params) = some v := hfound
      rw [runHistory_found env _ _ _ _ v hfound'] at hh
      have hst : st' = (runHistoryRest env
          (preHistState env st call params (resolvePath env params)
            (fileAt st.fs (resolvePath env params)))
          v.content (resolvePath env params)
          (oldOfInfo env (resolvePath env params) (fileAt st.fs (resolvePath env params)))
          params.Content).2 := (congrArg Prod.snd hh).symm
      rw [hst, runHistoryRest_hist_ok env _ v.content _ _ _ (hnf _) (hnf _),
        oldOfInfo_fileAt]
      rfl

/-- Witness for C3 at the external-edit scenario: the pre-image
`user-edit` differs from the recorded `v1`, so it is preserved as an
intermediate version. -/
theorem intermediate_version_iff_preimage_differs_witness :
    latestVersion stEdit.hist "s" "/w/d.txt" = some ⟨"s", "/w/d.txt", "v1"⟩ ∧
    (Run env0 stEdit callEdit).2.hist =
      [⟨"s", "/w/d.txt", "v1"⟩, ⟨"s", "/w/d.txt", "user-edit"⟩, ⟨"s", "/w/d.txt", "v2"⟩] := by
  refine ⟨rfl, ?_⟩
  have h := intermediate_version_iff_preimage_differs env0 stEdit callEdit
    ⟨"/w/d.txt", "v2"⟩ ⟨"s", "/w/d.txt", "v1"⟩
    (Run env0 stEdit callEdit).1.1 (Run env0 stEdit callEdit).2
    rfl rfl (fun _ => rfl) rfl rfl
  rw [h]
  decide

/-- C4: evaluation at the failing input of the new-history-entry
scenario — a successful write for a (session, path) with no prior
history entry whose on-disk pre-image `x` is nonempty appends THREE
versions `[x, x, y]` (the intermediate duplicates the pre-image just
stored by `Create`, because the zero-valued `file` record is compared
against the pre-image), not the two the spec requires. -/
theorem new_entry_nonempty_preimage_three_versions :
    latestVersion stNew.hist "s" "/w/a.txt" = none ∧
    (Run env0 stNew callNew).1.2 = none ∧
    (Run env0 stNew callNew).1.1.isError = false ∧
    (Run env0 stNew callNew).2.hist =
      [⟨"s", "/w/a.txt", "x"⟩, ⟨"s", "/w/a.txt", "x"⟩, ⟨"s", "/w/a.txt", "y"⟩] :=
  ⟨rfl, rfl, rfl, rfl⟩

/-- C5: once the filesystem write has succeeded, a failure of the initial
history `Create` for a previously-unseen (session, path) makes `Run`
return the `creatingHistory` error, while failures of the subsequent
`CreateVersion` calls are swallowed and `Run` still returns the success
response with a nil error. -/
theorem history_failure_asymmetry (env : Env) (st : St) (call : ToolCall)
    (params : WriteParams)
    (hin : call.input = Except.ok params)
    (hfp : params.FilePath ≠ "") (hct : params.Content ≠ "")
    (hsf : env.statFails (resolvePath env params) = false)
    (hnode : statFs st.fs (resolvePath env params) = none ∨
      ∃ c t, statFs st.fs (resolvePath env params) = some (FsNode.file c t) ∧
        ¬(getLastReadTime st.tracker (resolvePath env params) < t) ∧
        ¬(env.readFails (resolvePath env params) = false ∧ c = params.Content))
    (hmk : env.mkdirFails (env.dirOf (resolvePath env params)) = false)
    (hsid : env.sessionID ≠ "") (hmid : env.messageID ≠ "")
    (hperm : env.permit (permReqOf env call params (resolvePath env params)
      (oldContentOf env st.fs (resolvePath env params))) = true)
    (hwf : env.writeFails (resolvePath env params) = false) :
    (latestVersion st.hist env.sessionID (resolvePath env params) = none ∧
        env.histFail st.histOps = true →
      (Run env st call).1 = (ToolResponse.zero, some GoError.creatingHistory)) ∧
    ((latestVersion st.hist env.sessionID (resolvePath env params) = none →
        env.histFail st.histOps = false) →
      (Run env st call).1.2 = none ∧ (Run env st call).1.1.isError = false) := by
  have hperm' : env.permit (permReqOf env call params (resolvePath env params)
      (oldOfInfo env (resolvePath env params) (fileAt st.fs (resolvePath env params)))) = true := by
    rw [oldOfInfo_fileAt]
    exact hperm
  have hrun : Run env st call = runHistory env
      (preHistState env st call params (resolvePath env params)
        (fileAt st.fs (resolvePath env params)))
      (resolvePath env params)
      (oldOfInfo env (resolvePath env params) (fileAt st.fs (resolvePath env params)))
      params.Content := by
    rw [run_eq_runMutate env st call params hin hfp hct hsf hnode,
      runMutate_eq_runHistory env st call params _ _ hmk hsid hmid hperm' hwf]
  constructor
  · rintro ⟨hnone, hfail⟩
    have hnone' : latestVersion
        (preHistState env st call params (resolvePath env params)
          (fileAt st.fs (resolvePath env params))).hist
        env.sessionID (resolvePath env params) = none := hnone
    have hfail' : env.histFail
        (preHistState env st call params (resolvePath env params)
          (fileAt st.fs (resolvePath env params))).histOps = true := hfail
    rw [hrun, runHistory_create_fail env _ _ _ _ hnone' hfail']
  · intro hok
    rw [hrun]
    have h1 := runHistory_fst_success env
      (preHistState env st call params (resolvePath env params)
        (fileAt st.fs (resolvePath env params)))
      (resolvePath env params)
      (oldOfInfo env (resolvePath env params) (fileAt st.fs (resolvePath env params)))
      params.Content (fun hn => hok hn)
    rw [h1]
    exact ⟨rfl, rfl⟩

/-- Witness for C5 at the fresh-file scenario against the store that
fails every call after the first. -/
theorem history_failure_asymmetry_witness :
    (latestVersion stEmpty.hist "s" "/w/a.txt" = none ∧ envLateHistFail.histFail 0 = true →
      (Run envLateHistFail stEmpty callFresh).1 =
        (ToolResponse.zero, some GoError.creatingHistory)) ∧
    ((latestVersion stEmpty.hist "s" "/w/a.txt" = none →
        envLateHistFail.histFail 0 = false) →
      (Run envLateHistFail stEmpty callFresh).1.2 = none ∧
        (Run envLateHistFail stEmpty callFresh).1.1.isError = false) :=
  history_failure_asymmetry envLateHistFail stEmpty callFresh ⟨"a.txt", "hello"⟩
    rfl (by decide) (by decide) rfl (Or.inl rfl) rfl (by decide) (by decide) rfl rfl

/-- C7: every permission request the write tool emits carries as its
`path` the result of `PathOrPrefix` on the resolved path and the working
directory: the working directory when `filepath.Rel` puts the resolved
path inside it (relative path not beginning with `..`), the resolved
absolute path otherwise. -/
theorem permission_request_path_scoping (env : Env) (st : St) (call : ToolCall)
    (resp : ToolResponse) (err : Option GoError) (st' : St) (req : CreatePermissionRequest)
    (h : Run env st call = ((resp, err), st'))
    (hreq : st'.permRequests = st.permRequests ++ [req]) :
    ∃ params, call.input = Except.ok params ∧
      req.path = PathOrPrefix env.rel (resolvePath env params) env.workingDir ∧
      (HasPrefix env.rel (resolvePath env params) env.workingDir = true →
        req.path = env.workingDir) ∧
      (HasPrefix env.rel (resolvePath env params) env.workingDir = false →
        req.path = resolvePath env params) := by
  have hlen : st.permRequests ≠ st.permRequests ++ [req] := by simp
  rcases run_branches env st call resp err st' h with
    ⟨_, _, hst⟩ | ⟨_, _, hst⟩ | ⟨params, hin, hm⟩
  · subst hst
    exact absurd hreq hlen
  · subst hst
    exact absurd hreq hlen
  · have finish : ∀ (hq : st.permRequests ++
        [permReqOf env call params (resolvePath env params)
          (oldOfInfo env (resolvePath env params) (fileAt st.fs (resolvePath env params)))] =
        st.permRequests ++ [req]),
      ∃ params, call.input = Except.ok params ∧
        req.path = PathOrPrefix env.rel (resolvePath env params) env.workingDir ∧
        (HasPrefix env.rel (resolvePath env params) env.workingDir = true →
          req.path = env.workingDir) ∧
        (HasPrefix env.rel (resolvePath env params) env.workingDir = false →
          req.path = resolvePath env params) := by
      intro hq
      have hcancel : permReqOf env call params (resolvePath env params)
          (oldOfInfo env (resolvePath env params) (fileAt st.fs (resolvePath env params))) =
            req := by
        have h2 := List.append_cancel_left hq
        simpa using h2
      refine ⟨params, hin, ?_, ?_, ?_⟩
      · rw [← hcancel]
        rfl
      · intro ht
        rw [← hcancel]
        show PathOrPrefix env.rel (resolvePath env params) env.workingDir = env.workingDir
        unfold PathOrPrefix
        rw [if_pos ht]
      · intro hf
        rw [← hcancel]
        show PathOrPrefix env.rel (resolvePath env params) env.workingDir =
          resolvePath env params
        unfold PathOrPrefix
        rw [if_neg (by simp [hf])]
    rcases runMutate_shape env st call params _ _ resp err st' hm with
      ⟨_, _, hst⟩ | ⟨_, _, hst⟩ | ⟨_, _, hst⟩ | ⟨_, _, hst⟩ | hh
    · subst hst
      exact absurd hreq hlen
    · subst hst
      exact absurd hreq hlen
    · subst hst
      exact finish hreq
    · subst hst
      exact finish hreq
    · have hpr : (runHistory env
          (preHistState env st call params (resolvePath env params)
            (fileAt st.fs (resolvePath env params)))
          (resolvePath env params)
          (oldOfInfo env (resolvePath env params) (fileAt st.fs (resolvePath env params)))
          params.Content).2.permRequests = st'.permRequests := by rw [hh]
      rw [runHistory_permRequests] at hpr
      exact finish (hpr.trans hreq)

/-- The request emitted in the fresh-file scenario (the resolved path
`/w/a.txt` lies inside the working directory `/w`, so the request is
scoped to `/w`). -/
def reqFresh : CreatePermissionRequest :=
  permReqOf env0 callFresh ⟨"a.txt", "hello"⟩ "/w/a.txt" ""

/-- Witness for C7 at the fresh-file scenario. -/
theorem permission_request_path_scoping_witness :
    ∃ params, callFresh.input = Except.ok params ∧
      reqFresh.path = PathOrPrefix env0.rel (resolvePath env0 params) env0.workingDir ∧
      (HasPrefix env0.rel (resolvePath env0 params) env0.workingDir = true →
        reqFresh.path = env0.workingDir) ∧
      (HasPrefix env0.rel (resolvePath env0 params) env0.workingDir = false →
        reqFresh.path = resolvePath env0 params) :=
  permission_request_path_scoping env0 stEmpty callFresh
    (Run env0 stEmpty callFresh).1.1 (Run env0 stEmpty callFresh).1.2
    (Run env0 stEmpty callFresh).2 reqFresh rfl rfl

/-- C8: a successful call returns the success message wrapped in
`<result>` tags followed by the diagnostics section, and its metadata is
exactly the diff string with the addition and removal counts computed by
the diff engine from the captured pre-image and the written content. -/
theorem success_response_content_and_metadata (env : Env) (st : St) (call : ToolCall)
    (resp : ToolResponse) (st' : St)
    (h : Run env st call = ((resp, none), st'))
    (hsucc : resp.isError = false) :
    ∃ params, call.input = Except.ok params ∧
      resp.content =
        "<result>\nFile successfully written: " ++ resolvePath env params ++ "\n</result>" ++
          env.diagnostics (resolvePath env params) ∧
      resp.metadata = some
        ⟨(env.genDiff (oldContentOf env st.fs (resolvePath env params)) params.Content
            (TrimPrefix (resolvePath env params) env.workingDir)).1,
          (env.genDiff (oldContentOf env st.fs (resolvePath env params)) params.Content
            (TrimPrefix (resolvePath env params) env.workingDir)).2.1,
          (env.genDiff (oldContentOf env st.fs (resolvePath env params)) params.Content
            (TrimPrefix (resolvePath env params) env.workingDir)).2.2⟩ := by
  rcases run_branches env st call resp none st' h with
    ⟨_, hie, _⟩ | ⟨_, he, _⟩ | ⟨params, hin, hm⟩
  · exact absurd (hsucc.symm.trans hie) Bool.false_ne_true
  · exact absurd he (by decide)
  · rcases runMutate_shape env st call params _ _ resp none st' hm with
      ⟨_, he, _⟩ | ⟨_, he, _⟩ | ⟨_, he, _⟩ | ⟨_, he, _⟩ | hh
    · exact absurd he (by decide)
    · exact absurd he (by decide)
    · exact absurd he (by decide)
    · exact absurd he (by decide)
    · have h1 : (runHistory env
          (preHistState env st call params (resolvePath env params)
            (fileAt st.fs (resolvePath env params)))
          (resolvePath env params)
          (oldOfInfo env (resolvePath env params) (fileAt st.fs (resolvePath env params)))
          params.Content).1 = (resp, none) := by rw [hh]
      rcases runHistory_fst_cases env
          (preHistState env st call params (resolvePath env params)
            (fileAt st.fs (resolvePath env params)))
          (resolvePath env params)
          (oldOfInfo env (resolvePath env params) (fileAt st.fs (resolvePath env params)))
          params.Content with hc | hc
      · rw [hc] at h1
        injection h1 with _ he2
        exact absurd he2 (by decide)
      · rw [hc] at h1
        injection h1 with hr1 _
        refine ⟨params, hin, ?_, ?_⟩
        · rw [← hr1]
          rfl
        · rw [← hr1]
          show (successResp env (resolvePath env params)
            (oldOfInfo env (resolvePath env params) (fileAt st.fs (resolvePath env params)))
            params.Content).metadata = _
          rw [oldOfInfo_fileAt]
          rfl

/-- Witness for C8 at the fresh-file scenario. -/
theorem success_response_content_and_metadata_witness :
    ∃ params, callFresh.input = Except.ok params ∧
      (Run env0 stEmpty callFresh).1.1.content =
        "<result>\nFile successfully written: " ++ resolvePath env0 params ++ "\n</result>" ++
          env0.diagnostics (resolvePath env0 params) ∧
      (Run env0 stEmpty callFresh).1.1.metadata = some
        ⟨(env0.genDiff (oldContentOf env0 stEmpty.fs (resolvePath env0 params)) params.Content
            (TrimPrefix (resolvePath env0 params) env0.workingDir)).1,
          (env0.genDiff (oldContentOf env0 stEmpty.fs (resolvePath env0 params)) params.Content
            (TrimPrefix (resolvePath env0 params) env0.workingDir)).2.1,
          (env0.genDiff (oldContentOf env0 stEmpty.fs (resolvePath env0 params)) params.Content
            (TrimPrefix (resolvePath env0 params) env0.workingDir)).2.2⟩ :=
  success_response_content_and_metadata env0 stEmpty callFresh
    (Run env0 stEmpty callFresh).1.1 (Run env0 stEmpty callFresh).2 rfl rfl

/-- Witness for C10 at a string containing a line feed and no carriage
return. -/
theorem lineEndings_roundTrip_witness :
    '\r' ∉ ("a\nb" : String).data ∧
    (ToUnixLineEndings (ToWindowsLineEndings "a\nb").1).1 = "a\nb" :=
  ⟨by decide, lineEndings_roundTrip "a\nb" (by decide)⟩

end ZeroSpec
